import Mathlib

/-!
Verification of the SPAIA xiao_sense perception-and-delivery core against its
natural-language specification.  The definitions below are a shallow embedding
of `src/components/motion_detector/motion_detector.c`,
`src/components/upload_manager/upload_manager.c` and
`src/components/camera_interface/camera_interface.c`: machine integers are
modelled as `Nat` with an explicit `% 2^32` wherever `size_t`/`uint32_t`
overflow matters, buffers as `List Nat`, and fallible allocation as an explicit
oracle of outcomes.
-/

namespace XiaoSense

/-- Modulus (`2 ^ 32`) of `size_t` / `uint32_t` arithmetic on the 32-bit
ESP32-S3 target. -/
def SZ : Nat := 4294967296

/-- Wrapping `size_t` subtraction `a - b` (operands reduced mod `2^32`). -/
def szsub (a b : Nat) : Nat := (a % SZ + SZ - b % SZ) % SZ

-- Configuration constants from motion_detector.c

def FRAME_INIT_COUNT : Nat := 20
def MAX_COMPONENTS : Nat := 30
def MIN_COMPONENT_PIXELS : Nat := 20
def MAX_BOX_AREA : Nat := 10000
def MIN_BOX_AREA : Nat := 30

/-- `BoundingBox` from motion_detector.c: four `size_t` pixel coordinates. -/
structure BoundingBox where
  x_min : Nat
  y_min : Nat
  x_max : Nat
  y_max : Nat
deriving DecidableEq, Repr

/-- Box area as computed by `filter_large_boxes` / `filter_small_boxes`:
`(x_max - x_min) * (y_max - y_min)` in `size_t` arithmetic. -/
def boxArea (b : BoundingBox) : Nat :=
  szsub b.x_max b.x_min * szsub b.y_max b.y_min % SZ

/-- `calculate_intersection` from motion_detector.c. -/
def calculate_intersection (box1 box2 : BoundingBox) : Nat :=
  let x_min := max box1.x_min box2.x_min
  let y_min := max box1.y_min box2.y_min
  let x_max := min box1.x_max box2.x_max
  let y_max := min box1.y_max box2.y_max
  if x_min ≥ x_max ∨ y_min ≥ y_max then 0
  else (x_max - x_min) * (y_max - y_min) % SZ

/-- `calculate_union` from motion_detector.c: `area1 + area2 - intersection`
in `size_t` arithmetic. -/
def calculate_union (box1 box2 : BoundingBox) : Nat :=
  ((boxArea box1 + boxArea box2) % SZ + SZ - calculate_intersection box1 box2) % SZ

/-- The comparison `calculate_iou(box1, box2) > iou_threshold` from the merge
loop of `filter_and_merge_boxes`, at the compiled-in threshold
`IOU_THRESHOLD = 0.4`.  `calculate_iou` returns `0.0` when the union area is
`0` (the guard below) and `(float)intersection / union_area` otherwise; the
quotient-versus-threshold test is modelled exactly over the integers as
`intersection / union > 2/5  ↔  5*intersection > 2*union`.  (At every input
used in the theorems below the quotient is far further from `2/5` than the
`2^-24` relative rounding error of single-precision evaluation, so the exact
rational comparison and the float comparison agree there.) -/
def iou_gt_threshold (box1 box2 : BoundingBox) : Bool :=
  let inter := calculate_intersection box1 box2
  let uni := calculate_union box1 box2
  if uni = 0 then false else decide (5 * inter > 2 * uni)

/-- `merge_boxes` from motion_detector.c: the axis-aligned union of two boxes. -/
def merge_boxes (box1 box2 : BoundingBox) : BoundingBox :=
  { x_min := min box1.x_min box2.x_min
    y_min := min box1.y_min box2.y_min
    x_max := max box1.x_max box2.x_max
    y_max := max box1.y_max box2.y_max }

/-- `filter_large_boxes` from motion_detector.c: the in-place delete-and-shift
loop keeps exactly the boxes with `area ≤ max_area`, in order. -/
def filter_large_boxes : List BoundingBox → Nat → List BoundingBox
  | [], _ => []
  | b :: bs, max_area =>
    if boxArea b > max_area then filter_large_boxes bs max_area
    else b :: filter_large_boxes bs max_area

/-- `filter_small_boxes` from motion_detector.c: removes boxes with
`area < min_area`, keeping the rest in order. -/
def filter_small_boxes : List BoundingBox → Nat → List BoundingBox
  | [], _ => []
  | b :: bs, min_area =>
    if boxArea b < min_area then filter_small_boxes bs min_area
    else b :: filter_small_boxes bs min_area

/-- `filter_edge_touching_boxes` from motion_detector.c: removes boxes with
`x_min == 0`, `y_min == 0`, `x_max == frame_width-1` or
`y_max == frame_height-1`. -/
def filter_edge_touching_boxes : List BoundingBox → Nat → Nat → List BoundingBox
  | [], _, _ => []
  | b :: bs, frame_width, frame_height =>
    if b.x_min = 0 ∨ b.y_min = 0 ∨ b.x_max = szsub frame_width 1 ∨
        b.y_max = szsub frame_height 1 then
      filter_edge_touching_boxes bs frame_width frame_height
    else b :: filter_edge_touching_boxes bs frame_width frame_height

/-- The inner `j` loop of `filter_and_merge_boxes` at a fixed outer index:
scan the boxes after position `i` left to right; on IoU above the threshold,
replace the accumulator with the merged box, delete the scanned box, and
recheck from the same position (the `j--` in the source); otherwise keep the
scanned box and advance.  Returns the final box for position `i` together with
the surviving later boxes. -/
def merge_scan (b : BoundingBox) : List BoundingBox → BoundingBox × List BoundingBox
  | [] => (b, [])
  | r :: rest =>
    if iou_gt_threshold b r then merge_scan (merge_boxes b r) rest
    else
      let p := merge_scan b rest
      (p.1, r :: p.2)

theorem merge_scan_len (b : BoundingBox) (l : List BoundingBox) :
    (merge_scan b l).2.length ≤ l.length := by
  induction l generalizing b with
  | nil => simp [merge_scan]
  | cons r rest ih =>
    by_cases h : iou_gt_threshold b r = true
    · simp only [merge_scan, h, if_true, List.length_cons]
      exact le_trans (ih _) (Nat.le_succ _)
    · simp only [merge_scan, h, if_false, Bool.false_eq_true, List.length_cons]
      exact Nat.succ_le_succ (ih b)

/-- The outer `i` loop of `filter_and_merge_boxes`: after the inner scan at
position `i` finishes, the box at position `i` is never written again, so the
pass is the recursion below.  The loop always terminates within `length`
outer iterations; the fuel argument makes that recursion structural (it is
instantiated with the list length in `merge_pass` and is never exhausted, see
`merge_pass_fuel_len`). -/
def merge_pass_fuel : Nat → List BoundingBox → List BoundingBox
  | _, [] => []
  | 0, l => l
  | fuel + 1, b :: rest =>
    (merge_scan b rest).1 :: merge_pass_fuel fuel (merge_scan b rest).2

/-- The merge pass of `filter_and_merge_boxes` (the double loop over box
indices). -/
def merge_pass (l : List BoundingBox) : List BoundingBox :=
  merge_pass_fuel l.length l

/-- `filter_and_merge_boxes` from motion_detector.c: drop large boxes, then
run the IoU merge pass (threshold baked in as `IOU_THRESHOLD`). -/
def filter_and_merge_boxes (boxes : List BoundingBox) (max_area : Nat) :
    List BoundingBox :=
  merge_pass (filter_large_boxes boxes max_area)

theorem merge_pass_fuel_len (fuel : Nat) (l : List BoundingBox) :
    (merge_pass_fuel fuel l).length ≤ l.length := by
  induction fuel generalizing l with
  | zero => cases l <;> simp [merge_pass_fuel]
  | succ fuel ih =>
    cases l with
    | nil => simp [merge_pass_fuel]
    | cons b rest =>
      simp only [merge_pass_fuel, List.length_cons]
      exact Nat.succ_le_succ (le_trans (ih _) (merge_scan_len b rest))

theorem merge_scan_of_len_eq (b : BoundingBox) (l : List BoundingBox)
    (h : (merge_scan b l).2.length = l.length) : merge_scan b l = (b, l) := by
  induction l generalizing b with
  | nil => simp [merge_scan]
  | cons r rest ih =>
    by_cases hb : iou_gt_threshold b r = true
    · exfalso
      simp only [merge_scan, hb, if_true, List.length_cons] at h
      have := merge_scan_len (merge_boxes b r) rest
      omega
    · simp only [merge_scan, hb, if_false, Bool.false_eq_true, List.length_cons] at h ⊢
      have h2 : (merge_scan b rest).2.length = rest.length := by omega
      rw [ih b h2]

theorem merge_scan_no_overlap (b : BoundingBox) (l : List BoundingBox)
    (h : merge_scan b l = (b, l)) :
    ∀ r ∈ l, iou_gt_threshold b r = false := by
  induction l generalizing b with
  | nil => intro r hr; cases hr
  | cons r rest ih =>
    by_cases hb : iou_gt_threshold b r = true
    · exfalso
      simp only [merge_scan, hb, if_true] at h
      have hlen := congrArg (fun p => p.2.length) h
      simp only [List.length_cons] at hlen
      have := merge_scan_len (merge_boxes b r) rest
      omega
    · intro s hs
      simp only [merge_scan, hb, if_false, Bool.false_eq_true] at h
      rcases hms : merge_scan b rest with ⟨p1, p2⟩
      rw [hms] at h
      simp only [Prod.mk.injEq, List.cons.injEq, true_and] at h
      obtain ⟨hp1, hp2⟩ := h
      rw [hp1, hp2] at hms
      rcases List.mem_cons.mp hs with hs' | hs'
      · subst hs'
        simpa using hb
      · exact ih b hms s hs'

theorem merge_scan_of_no_overlap (b : BoundingBox) (l : List BoundingBox)
    (h : ∀ r ∈ l, iou_gt_threshold b r = false) : merge_scan b l = (b, l) := by
  induction l generalizing b with
  | nil => simp [merge_scan]
  | cons r rest ih =>
    have hb : iou_gt_threshold b r = false := h r (List.mem_cons_self r rest)
    simp only [merge_scan, hb, if_false, Bool.false_eq_true]
    rw [ih b fun s hs => h s (List.mem_cons_of_mem r hs)]

theorem merge_pass_fuel_fix_iff (fuel : Nat) (l : List BoundingBox)
    (hf : l.length ≤ fuel) :
    merge_pass_fuel fuel l = l ↔
      List.Pairwise (fun a b => iou_gt_threshold a b = false) l := by
  induction fuel generalizing l with
  | zero =>
    have : l = [] := List.eq_nil_of_length_eq_zero (Nat.le_zero.mp hf)
    subst this
    simp [merge_pass_fuel]
  | succ fuel ih =>
    cases l with
    | nil => simp [merge_pass_fuel]
    | cons b rest =>
      simp only [List.length_cons, Nat.succ_le_succ_iff] at hf
      constructor
      · intro h
        simp only [merge_pass_fuel] at h
        have h1 : (merge_scan b rest).1 = b := (List.cons.inj h).1
        have h2 : merge_pass_fuel fuel (merge_scan b rest).2 = rest :=
          (List.cons.inj h).2
        have hlen : (merge_scan b rest).2.length = rest.length := by
          have ha := merge_pass_fuel_len fuel (merge_scan b rest).2
          have hb := merge_scan_len b rest
          have hc := congrArg List.length h2
          omega
        have hscan := merge_scan_of_len_eq b rest hlen
        have hrest : merge_pass_fuel fuel rest = rest := by
          rw [hscan] at h2
          exact h2
        exact List.Pairwise.cons (merge_scan_no_overlap b rest hscan)
          ((ih rest hf).mp hrest)
      · intro h
        have hhead : ∀ r ∈ rest, iou_gt_threshold b r = false :=
          fun r hr => List.rel_of_pairwise_cons h hr
        simp only [merge_pass_fuel, merge_scan_of_no_overlap b rest hhead]
        rw [(ih rest hf).mpr h.of_cons]

/-- C2 (amended): the merge pass leaves its input unchanged exactly when no
pair of boxes (in position order, as scanned by the source's double loop) has
IoU above the threshold.  This is the fixed-point characterisation; a single
pass does not in general establish the pairwise property and is not
idempotent (see `c2_counterexample`). -/
theorem c2_merge_pass_fixpoint_iff (bs : List BoundingBox) :
    merge_pass bs = bs ↔
      List.Pairwise (fun a b => iou_gt_threshold a b = false) bs :=
  merge_pass_fuel_fix_iff bs.length bs (Nat.le_refl _)

/-- C2 counterexample: for the input `[A, B, C]` below (all areas well under
`MAX_BOX_AREA`, so `filter_and_merge_boxes` reduces to the merge pass), the
pass merges `B` and `C` into `D = {0,0,10,9}` after `A` has already been
checked against the smaller `B` and `C`; the output pair `(A, D)` has IoU
`90/200 = 0.45`, strictly above the `0.4` threshold, and a second application
of the pass merges it — the pass is neither pairwise-bounding nor idempotent. -/
theorem c2_counterexample :
    filter_and_merge_boxes
        [⟨0, 0, 20, 10⟩, ⟨0, 0, 10, 6⟩, ⟨0, 2, 10, 9⟩] MAX_BOX_AREA =
      [⟨0, 0, 20, 10⟩, ⟨0, 0, 10, 9⟩] ∧
    iou_gt_threshold ⟨0, 0, 20, 10⟩ ⟨0, 0, 10, 9⟩ = true ∧
    merge_pass (merge_pass [⟨0, 0, 20, 10⟩, ⟨0, 0, 10, 6⟩, ⟨0, 2, 10, 9⟩]) ≠
      merge_pass [⟨0, 0, 20, 10⟩, ⟨0, 0, 10, 6⟩, ⟨0, 2, 10, 9⟩] := by
  refine ⟨by decide, by decide, by decide⟩

/-- C9: the area used by the size filters is
`(x_max - x_min) * (y_max - y_min)` on the inclusive pixel coordinates, so a
single-row or single-column box has computed area `0` and is removed by
`filter_small_boxes` for every positive minimum area. -/
theorem c9_degenerate_box_filtered (bs : List BoundingBox) (m : Nat)
    (hm : 0 < m) (b : BoundingBox)
    (hb : b.x_min = b.x_max ∨ b.y_min = b.y_max) :
    boxArea b = 0 ∧ b ∉ filter_small_boxes bs m := by
  have hsz : ∀ x : Nat, szsub x x = 0 := by
    intro x
    simp only [szsub, SZ]
    omega
  have harea : boxArea b = 0 := by
    rcases hb with hb | hb
    · simp [boxArea, hb, hsz]
    · simp [boxArea, hb, hsz]
  refine ⟨harea, ?_⟩
  induction bs with
  | nil => simp [filter_small_boxes]
  | cons c cs ih =>
    by_cases hc : boxArea c < m
    · simpa [filter_small_boxes, hc] using ih
    · simp only [filter_small_boxes, hc, if_false]
      intro hmem
      rcases List.mem_cons.mp hmem with hcb | hcb
      · subst hcb
        rw [harea] at hc
        omega
      · exact ih hcb

/-- Closed witness for `c9_degenerate_box_filtered` at a concrete degenerate
box and the compiled-in `MIN_BOX_AREA`. -/
theorem c9_degenerate_box_filtered_witness :
    boxArea ⟨3, 4, 3, 9⟩ = 0 ∧
      (⟨3, 4, 3, 9⟩ : BoundingBox) ∉
        filter_small_boxes [⟨3, 4, 3, 9⟩, ⟨1, 1, 8, 8⟩] MIN_BOX_AREA :=
  c9_degenerate_box_filtered [⟨3, 4, 3, 9⟩, ⟨1, 1, 8, 8⟩] MIN_BOX_AREA
    (by decide) ⟨3, 4, 3, 9⟩ (Or.inl rfl)

/-!
Exact model of the single-precision arithmetic in the source's exponential
moving average.  Every value arising there is a nonnegative dyadic rational
far inside the normal range of binary32, so an IEEE-754 operation is exactly:
compute the rational result, then round the significand to 24 bits, to
nearest, ties to even.
-/

/-- A nonnegative dyadic rational with value `n / 2^k`. -/
structure Dyadic where
  n : Nat
  k : Nat
deriving DecidableEq, Repr

/-- Bit length of a natural number below `2^64` (the fuel bounds the halving
recursion so that it is structural and kernel-reducible; every numerator
arising in the EMA model is far below `2^64`). -/
def bitLenAux : Nat → Nat → Nat
  | 0, _ => 0
  | fuel + 1, n => if n = 0 then 0 else bitLenAux fuel (n / 2) + 1

def bitLen (n : Nat) : Nat := bitLenAux 64 n

/-- Round a nonnegative dyadic to at most 24 significant bits (to nearest,
ties to even): the rounding a binary32 operation applies to its exact result
for the magnitudes occurring in the background update (no overflow or
subnormals there). -/
def dyRound (d : Dyadic) : Dyadic :=
  if d.n = 0 then ⟨0, 0⟩
  else
    let bits := bitLen d.n
    if bits ≤ 24 then d
    else
      let s := bits - 24
      let q := d.n / 2 ^ s
      let r := d.n % 2 ^ s
      let half := 2 ^ (s - 1)
      let q' := if r > half ∨ (r = half ∧ q % 2 = 1) then q + 1 else q
      ⟨q', d.k - s⟩

/-- Single-precision multiplication (exact product, then rounding). -/
def dyMul (a b : Dyadic) : Dyadic := dyRound ⟨a.n * b.n, a.k + b.k⟩

/-- Single-precision addition (exact sum, then rounding). -/
def dyAdd (a b : Dyadic) : Dyadic :=
  let k := max a.k b.k
  dyRound ⟨a.n * 2 ^ (k - a.k) + b.n * 2 ^ (k - b.k), k⟩

/-- Truncation toward zero, the C `(uint8_t)` conversion from `float`
(all converted values lie in `[0, 256)` here). -/
def dyTrunc (d : Dyadic) : Nat := d.n / 2 ^ d.k

/-- The binary32 value of the literal `ALPHA = 0.1f`: `13421773 / 2^27`. -/
def ALPHA_F : Dyadic := ⟨13421773, 27⟩

/-- The binary32 evaluation of `1.0f - ALPHA`: the exact difference
`(2^27 - 13421773) / 2^27`, rounded. -/
def ONE_MINUS_ALPHA_F : Dyadic := dyRound ⟨2 ^ 27 - 13421773, 27⟩

/-- One pixel of the post-warm-up background update:
`(uint8_t)((1.0f - ALPHA) * bg_model.background[i] + ALPHA * pixels[i])`. -/
def emaByte (bg p : Nat) : Nat :=
  dyTrunc (dyAdd (dyMul ONE_MINUS_ALPHA_F ⟨bg, 0⟩) (dyMul ALPHA_F ⟨p, 0⟩))

/-!
Background model (motion_detector.c, globals `bg_model` and `frame_counter`).
-/

/-- `BackgroundModel` from motion_detector.h.  `background = none` models the
NULL pointer. -/
structure BackgroundModel where
  background : Option (List Nat)
  width : Nat
  height : Nat
  initialized : Bool
deriving Repr

/-- The detector's mutable globals: `bg_model` plus the static
`frame_counter`. -/
structure DetectorState where
  bg : BackgroundModel
  frame_counter : Nat
deriving Repr

/-- `initialize_background_model` from motion_detector.c: (re)allocates the
buffer, resets `initialized` and `frame_counter`.  The fresh `malloc` contents
are indeterminate in C; they are only ever read after the first `update` call
has overwritten them (`frame_counter == 0` forces a `memcpy`), so the zero
placeholder is never observable.  The `malloc` itself is modelled as
succeeding (its failure is outside every claim treated here). -/
def init_background_model (w h : Nat) : DetectorState :=
  { bg := { background := some (List.replicate (w * h) 0)
            width := w
            height := h
            initialized := false }
    frame_counter := 0 }

/-- The guard `!bg_model.background || bg_model.width != width ||
bg_model.height != height` used by both `update_background_model` and
`detect_motion`. -/
def bgNeedsInit (st : DetectorState) (w h : Nat) : Bool :=
  st.bg.background.isNone || st.bg.width != w || st.bg.height != h

/-- `update_background_model` from motion_detector.c.  During warm-up the
buffer is seeded (copy on the first frame) or accumulated as a running integer
mean `(bg[i]*n + pixels[i]) / (n+1)`; once `frame_counter` reaches
`FRAME_INIT_COUNT`, `initialized` is set and every later call applies the
single-precision EMA `emaByte`. -/
def update_background_model (st : DetectorState) (pixels : List Nat)
    (w h : Nat) : DetectorState :=
  if pixels.length = 0 ∨ w = 0 ∨ h = 0 then st
  else
    let st1 := if bgNeedsInit st w h then init_background_model w h else st
    let bgbuf := st1.bg.background.getD []
    if st1.frame_counter < FRAME_INIT_COUNT then
      let newbg :=
        if st1.frame_counter = 0 then
          (List.range (w * h)).map fun i => pixels.getD i 0
        else
          (List.range (w * h)).map fun i =>
            (bgbuf.getD i 0 * st1.frame_counter + pixels.getD i 0) /
              (st1.frame_counter + 1)
      let fc := st1.frame_counter + 1
      { bg := { st1.bg with
                  background := some newbg
                  initialized := st1.bg.initialized || decide (FRAME_INIT_COUNT ≤ fc) }
        frame_counter := fc }
    else
      { st1 with
          bg := { st1.bg with
                    background := some ((List.range (w * h)).map fun i =>
                      emaByte (bgbuf.getD i 0) (pixels.getD i 0)) } }

/-- `cleanup_background_model` from motion_detector.c. -/
def cleanup_background_model (_st : DetectorState) : DetectorState :=
  { bg := { background := none, width := 0, height := 0, initialized := false }
    frame_counter := 0 }

/-- Repeated presentation of frames to `update_background_model` at fixed
dimensions. -/
def run_updates (st : DetectorState) (frames : List (List Nat)) (w h : Nat) :
    DetectorState :=
  frames.foldl (fun s f => update_background_model s f w h) st

/-- The state invariant maintained by warm-up and EMA updates after `k`
well-formed frames. -/
def goodState (st : DetectorState) (w h k : Nat) : Prop :=
  (∃ buf : List Nat, st.bg.background = some buf ∧ buf.length = w * h) ∧
    st.bg.width = w ∧ st.bg.height = h ∧
    st.bg.initialized = decide (FRAME_INIT_COUNT ≤ k) ∧
    st.frame_counter = min k FRAME_INIT_COUNT

theorem goodState_init (w h : Nat) : goodState (init_background_model w h) w h 0 := by
  refine ⟨⟨List.replicate (w * h) 0, rfl, List.length_replicate _ _⟩, rfl, rfl, ?_, ?_⟩
  · simp [init_background_model, FRAME_INIT_COUNT]
  · simp [init_background_model]

theorem goodState_update (st : DetectorState) (w h k : Nat) (hw : 0 < w)
    (hh : 0 < h) (hst : goodState st w h k) (f : List Nat)
    (hf : f.length = w * h) :
    goodState (update_background_model st f w h) w h (k + 1) := by
  obtain ⟨⟨buf, hbuf, hlen⟩, hwid, hhei, hinit, hfc⟩ := hst
  have hfne : ¬(f.length = 0 ∨ w = 0 ∨ h = 0) := by
    push_neg
    refine ⟨?_, by omega, by omega⟩
    rw [hf]
    positivity
  have hni : bgNeedsInit st w h = false := by
    simp [bgNeedsInit, hbuf, hwid, hhei]
  by_cases hk : k < FRAME_INIT_COUNT
  · have hfc' : st.frame_counter < FRAME_INIT_COUNT := by
      rw [hfc]; omega
    simp only [goodState, update_background_model, hfne, if_false, hni,
      Bool.false_eq_true, hfc', if_true]
    refine ⟨⟨_, rfl, by split <;> simp⟩, hwid, hhei, ?_, ?_⟩
    · rw [hinit, hfc]
      have h1 : decide (FRAME_INIT_COUNT ≤ k) = false := by
        simp only [decide_eq_false_iff_not]
        omega
      rw [h1, Bool.false_or]
      have h2 : min k FRAME_INIT_COUNT + 1 = k + 1 := by omega
      rw [h2]
    · rw [hfc]
      omega
  · have hfc' : ¬ st.frame_counter < FRAME_INIT_COUNT := by
      rw [hfc]; omega
    simp only [goodState, update_background_model, hfne, if_false, hni,
      Bool.false_eq_true, hfc', if_true]
    refine ⟨⟨_, rfl, by simp⟩, hwid, hhei, ?_, ?_⟩
    · rw [hinit]
      simp only [decide_eq_decide]
      omega
    · rw [hfc]
      omega

theorem goodState_run (w h : Nat) (hw : 0 < w) (hh : 0 < h)
    (frames : List (List Nat)) (hf : ∀ f ∈ frames, f.length = w * h)
    (st : DetectorState) (k : Nat) (hst : goodState st w h k) :
    goodState (run_updates st frames w h) w h (k + frames.length) := by
  induction frames generalizing st k with
  | nil => simpa [run_updates] using hst
  | cons f fs ih =>
    have hstep := goodState_update st w h k hw hh hst f (hf f (List.mem_cons_self f fs))
    have := ih (fun g hg => hf g (List.mem_cons_of_mem f hg))
      (update_background_model st f w h) (k + 1) hstep
    simpa [run_updates, Nat.add_comm, Nat.add_assoc, Nat.add_left_comm] using this

/-- C8: starting from a fresh background model, `initialized` is false while
fewer than `FRAME_INIT_COUNT` well-formed frames (of the model's dimensions)
have been presented, becomes true at exactly the `FRAME_INIT_COUNT`-th
`update_background_model` call, stays true under every further update — the
flag is `FRAME_INIT_COUNT ≤ number of updates`, so it flips exactly once and
irreversibly — and is cleared again only by `cleanup_background_model` or a
fresh `initialize_background_model`. -/
theorem c8_initialized_exactly_once (w h : Nat) (hw : 0 < w) (hh : 0 < h)
    (frames : List (List Nat)) (hf : ∀ f ∈ frames, f.length = w * h) :
    (run_updates (init_background_model w h) frames w h).bg.initialized =
        decide (FRAME_INIT_COUNT ≤ frames.length) ∧
      (∀ st : DetectorState, (cleanup_background_model st).bg.initialized = false) ∧
      (init_background_model w h).bg.initialized = false := by
  refine ⟨?_, fun st => rfl, rfl⟩
  have := goodState_run w h hw hh frames hf (init_background_model w h) 0
    (goodState_init w h)
  simpa using this.2.2.2.1

/-- Closed witness for `c8_initialized_exactly_once`: twenty 2×2 frames flip
the flag, nineteen do not. -/
theorem c8_initialized_exactly_once_witness :
    (run_updates (init_background_model 2 2) (List.replicate 20 [0, 0, 0, 0]) 2 2).bg.initialized =
        decide (FRAME_INIT_COUNT ≤ 20) ∧
      (run_updates (init_background_model 2 2) (List.replicate 19 [0, 0, 0, 0]) 2 2).bg.initialized =
        decide (FRAME_INIT_COUNT ≤ 19) := by
  constructor
  · exact (c8_initialized_exactly_once 2 2 (by decide) (by decide)
      (List.replicate 20 [0, 0, 0, 0]) (by
        intro f hfm
        rw [List.eq_of_mem_replicate hfm]
        rfl)).1
  · exact (c8_initialized_exactly_once 2 2 (by decide) (by decide)
      (List.replicate 19 [0, 0, 0, 0]) (by
        intro f hfm
        rw [List.eq_of_mem_replicate hfm]
        rfl)).1

/-!
Heap model for `detect_motion`.  Each `malloc`/`calloc` inside the function
consults an oracle of outcomes (an exhausted oracle means success), tracks the
set of live buffers by tag, and records which allocations failed.
-/

/-- Tags for the buffers allocated inside `detect_motion` and
`boxes_to_json`.  `json_grow` and `json_shrink` are the two `realloc` events
on the `json` buffer. -/
inductive Buf where
  | boxes
  | pixel_x
  | pixel_y
  | labels
  | queue_x
  | queue_y
  | json
  | json_grow
  | json_shrink
deriving DecidableEq, Repr

/-- Allocation bookkeeping: remaining oracle, live buffers, failed requests. -/
structure AllocState where
  oracle : List Bool
  live : List Buf
  failed : List Buf
deriving Repr

/-- One `malloc`/`calloc`, consulting the oracle. -/
def allocSt (tag : Buf) (a : AllocState) : Bool × AllocState :=
  match a.oracle with
  | [] => (true, { a with live := tag :: a.live })
  | ok :: rest =>
    if ok then (true, { oracle := rest, live := tag :: a.live, failed := a.failed })
    else (false, { oracle := rest, live := a.live, failed := a.failed ++ [tag] })

/-- One `realloc` of an already-live buffer: success keeps the buffer live
under its old tag; failure leaves the original allocation intact (the caller
decides what to do with it). -/
def reallocSt (tag : Buf) (a : AllocState) : Bool × AllocState :=
  match a.oracle with
  | [] => (true, a)
  | ok :: rest =>
    if ok then (true, { a with oracle := rest })
    else (false, { oracle := rest, live := a.live, failed := a.failed ++ [tag] })

/-- `free`: removes the tag if live, a no-op otherwise (matching `free(NULL)`
on the pointers the source nulls or never assigned). -/
def freeSt (tag : Buf) (a : AllocState) : AllocState :=
  { a with live := a.live.erase tag }

/-!
Connected-component labeling (the middle of `detect_motion`).
-/

/-- `Component` from motion_detector.c. -/
structure Component where
  label : Nat
  x_min : Nat
  y_min : Nat
  x_max : Nat
  y_max : Nat
  pixel_count : Nat
deriving DecidableEq, Repr

/-- The changed-pixel predicate `abs(bg_model.background[i] - pixels[i]) >
threshold` (recomputed on the fly during BFS, exactly as in the source).  The
threshold is the integral `MOTION_THRESHOLD` the callers pass; comparing the
integer difference against it in `float` coincides with the `Nat`
comparison. -/
def pixel_changed (bg pixels : List Nat) (threshold i : Nat) : Bool :=
  decide (Nat.dist (bg.getD i 0) (pixels.getD i 0) > threshold)

/-- The neighbour offsets `(dy, dx)` scanned by the 8-connected BFS, in
source order (`dy` outer, `dx` inner, skipping `(0,0)`). -/
def neighbor_offsets : List (Int × Int) :=
  [(-1, -1), (-1, 0), (-1, 1), (0, -1), (0, 1), (1, -1), (1, 0), (1, 1)]

/-- State of one BFS flood fill: label map, the two queue arrays, the read
cursor `q_start`, and the component being accumulated. -/
structure BfsState where
  labels : List Nat
  queue_x : List Nat
  queue_y : List Nat
  q_start : Nat
  comp : Component
deriving Repr

/-- The neighbour scan of one BFS iteration: label and enqueue every
in-bounds, changed, unlabeled 8-neighbour of `(cx, cy)`. -/
def bfs_neighbors (pixels bg : List Nat) (w h threshold lab cx cy : Nat)
    (t : List Nat × List Nat × List Nat) : List Nat × List Nat × List Nat :=
  neighbor_offsets.foldl
    (fun t d =>
      let nx : Int := (cx : Int) + d.2
      let ny : Int := (cy : Int) + d.1
      if nx < 0 ∨ ny < 0 ∨ nx ≥ (w : Int) ∨ ny ≥ (h : Int) then t
      else
        let nidx := ny.toNat * w + nx.toNat
        if pixel_changed bg pixels threshold nidx && (t.1.getD nidx 0 == 0) then
          (t.1.set nidx lab, t.2.1 ++ [nx.toNat], t.2.2 ++ [ny.toNat])
        else t)
    t

/-- The BFS `while (q_start < q_end)` loop.  Each iteration pops one queued
pixel; a pixel is queued only when its label is first set, so the loop runs at
most `w*h` iterations — the fuel (instantiated with `w*h`) is never
exhausted. -/
def bfs_loop (pixels bg : List Nat) (w h threshold lab : Nat) :
    Nat → BfsState → BfsState
  | 0, s => s
  | fuel + 1, s =>
    if s.q_start < s.queue_x.length then
      let cx := s.queue_x.getD s.q_start 0
      let cy := s.queue_y.getD s.q_start 0
      let comp :=
        { s.comp with
            pixel_count := s.comp.pixel_count + 1
            x_min := min s.comp.x_min cx
            y_min := min s.comp.y_min cy
            x_max := max s.comp.x_max cx
            y_max := max s.comp.y_max cy }
      let t := bfs_neighbors pixels bg w h threshold lab cx cy
        (s.labels, s.queue_x, s.queue_y)
      bfs_loop pixels bg w h threshold lab fuel
        { labels := t.1, queue_x := t.2.1, queue_y := t.2.2,
          q_start := s.q_start + 1, comp := comp }
    else s

/-- State of the outer component loop: label map, surviving components (in
label order), `next_label`, allocation bookkeeping. -/
structure CclState where
  labels : List Nat
  components : List Component
  next_label : Nat
  alloc : AllocState
deriving Repr

/-- Outcome of the component loop: normal completion, or an early `return
false` after a BFS-queue allocation failure (with all of `labels`, `boxes`,
`pixel_x`, `pixel_y` and any queue halves freed, as in the source). -/
inductive CclResult where
  | ok (s : CclState)
  | fail (a : AllocState)
deriving Repr

/-- The `for` loop of `detect_motion` over the recorded changed pixels:
skip already-labeled pixels, stop at the component cap, otherwise allocate
the two BFS queues, flood-fill, keep the component if it reaches
`MIN_COMPONENT_PIXELS` and un-label it otherwise, freeing the queues. -/
def ccl_loop (pixels bg : List Nat) (w h threshold : Nat) :
    List (Nat × Nat) → CclState → CclResult
  | [], s => .ok s
  | (x, y) :: rest, s =>
    let idx := y * w + x
    if s.labels.getD idx 0 ≠ 0 then ccl_loop pixels bg w h threshold rest s
    else if MAX_COMPONENTS ≤ s.next_label then .ok s
    else
      let r1 := allocSt .queue_x s.alloc
      let r2 := allocSt .queue_y r1.2
      if r1.1 = false ∨ r2.1 = false then
        let a3 := freeSt .pixel_y (freeSt .pixel_x (freeSt .boxes (freeSt .labels r2.2)))
        let a4 := if r1.1 then freeSt .queue_x a3 else a3
        let a5 := if r2.1 then freeSt .queue_y a4 else a4
        .fail a5
      else
        let comp0 : Component := ⟨s.next_label, x, y, x, y, 0⟩
        let bs := bfs_loop pixels bg w h threshold s.next_label (w * h)
          { labels := s.labels.set idx s.next_label, queue_x := [x], queue_y := [y],
            q_start := 0, comp := comp0 }
        let afree := freeSt .queue_y (freeSt .queue_x r2.2)
        if MIN_COMPONENT_PIXELS ≤ bs.comp.pixel_count then
          ccl_loop pixels bg w h threshold rest
            { labels := bs.labels, components := s.components ++ [bs.comp],
              next_label := s.next_label + 1, alloc := afree }
        else
          let labels2 := (bs.queue_x.zip bs.queue_y).foldl
            (fun l q => l.set (q.2 * w + q.1) 0) bs.labels
          ccl_loop pixels bg w h threshold rest
            { labels := labels2, components := s.components,
              next_label := s.next_label, alloc := afree }

/-!
`boxes_to_json` (the event encoder).
-/

/-- The JSON record `snprintf` produces for one box. -/
def box_json (b : BoundingBox) : String :=
  "\x7b\"x_min\":" ++ toString b.x_min ++ ",\"y_min\":" ++ toString b.y_min ++
    ",\"x_max\":" ++ toString b.x_max ++ ",\"y_max\":" ++ toString b.y_max ++ "\x7d"

/-- Result of the per-box write loop of `boxes_to_json`. -/
inductive JsonResult where
  | ok (out : String) (rem est : Nat) (a : AllocState)
  | fail (a : AllocState)
deriving Repr

/-- The per-box write loop of `boxes_to_json`, tracking the written string,
the remaining buffer space and the (doubling) buffer size.  When a record
does not fit, the buffer is doubled via `realloc` — on failure the JSON
buffer is freed and the function returns NULL; on success the write is
retried (the doubled buffer always fits one record, which the source relies
on by not re-checking).  A trailing comma is written after every record but
the last. -/
def json_write_boxes : List BoundingBox → String → Nat → Nat → AllocState → JsonResult
  | [], out, rem, est, a => .ok out rem est a
  | b :: rest, out, rem, est, a =>
    let s := box_json b
    let written := s.length
    if rem ≤ written then
      match reallocSt .json_grow a with
      | (false, a1) => .fail (freeSt .json a1)
      | (true, a1) =>
        let est1 := est * 2
        let rem1 := est1 - out.length - written
        if rest.isEmpty then json_write_boxes rest (out ++ s) rem1 est1 a1
        else json_write_boxes rest (out ++ s ++ ",") (rem1 - 1) est1 a1
    else
      let rem1 := rem - written
      if rest.isEmpty then json_write_boxes rest (out ++ s) rem1 est a
      else json_write_boxes rest (out ++ s ++ ",") (rem1 - 1) est a

/-- Result of `boxes_to_json`: a heap string (ownership with the caller) or
NULL after an allocation failure. -/
inductive JsonOut where
  | str (s : String) (a : AllocState)
  | nullPtr (a : AllocState)
deriving Repr

/-- `boxes_to_json` from motion_detector.c.  An empty input returns
`strdup("[]")`; otherwise a buffer of `box_count * 120` bytes is allocated,
the records are written (doubling on demand), and a final trimming `realloc`
is attempted — whose failure is tolerated: the untrimmed buffer is
returned. -/
def boxes_to_json (boxes : List BoundingBox) (a : AllocState) : JsonOut :=
  if boxes.length = 0 then
    match allocSt .json a with
    | (true, a1) => .str ("[]") a1
    | (false, a1) => .nullPtr a1
  else
    let est := boxes.length * 120
    match allocSt .json a with
    | (false, a1) => .nullPtr a1
    | (true, a1) =>
      match json_write_boxes boxes ("[") (est - 1) est a1 with
      | .fail a2 => .nullPtr a2
      | .ok out _ _ a2 =>
        match reallocSt .json_shrink a2 with
        | (_, a3) => .str (out ++ "]") a3

/-!
`detect_motion` itself.
-/

/-- Result of one `detect_motion` call: the returned flag, the detector state
after the call, the allocation bookkeeping, and the JSON payload handed to
the sensor-data queue (whose ownership leaves the function). -/
structure DetectResult where
  motion : Bool
  st : DetectorState
  alloc : AllocState
  queued_json : Option String
deriving Repr

/-- The body of `detect_motion` from the post-update `initialized` check
onward.  `queue_send_ok` models whether `sensor_data_queue` exists and
`xQueueSend` succeeds (on failure the JSON buffer is freed but the function
still returns true).  A successful send transfers ownership of the JSON
buffer out of the function (recorded in `queued_json`), which the heap
bookkeeping treats as leaving the live set. -/
def detect_motion_core (st : DetectorState) (pixels : List Nat)
    (w h threshold : Nat) (queue_send_ok : Bool) (a0 : AllocState) : DetectResult :=
  if st.bg.initialized = false then ⟨false, st, a0, none⟩
  else
      let bg := st.bg.background.getD []
      let max_boxes := 30
      let rb := allocSt .boxes a0
      if rb.1 = false then ⟨false, st, rb.2, none⟩
      else
        let rx := allocSt .pixel_x rb.2
        let ry := allocSt .pixel_y rx.2
        if rx.1 = false ∨ ry.1 = false then
          ⟨false, st, freeSt .pixel_y (freeSt .pixel_x (freeSt .boxes ry.2)), none⟩
        else
          let total := w * h
          let changed := (List.range total).filter (pixel_changed bg pixels threshold)
          let changed_xy := changed.map fun i => (i % w, i / w)
          if changed.length < MIN_COMPONENT_PIXELS then
            ⟨false, st, freeSt .pixel_y (freeSt .pixel_x (freeSt .boxes ry.2)), none⟩
          else
            let rl := allocSt .labels ry.2
            if rl.1 = false then
              ⟨false, st, freeSt .pixel_y (freeSt .pixel_x (freeSt .boxes rl.2)), none⟩
            else
              match ccl_loop pixels bg w h threshold changed_xy
                  ⟨List.replicate total 0, [], 1, rl.2⟩ with
              | .fail a => ⟨false, st, a, none⟩
              | .ok s =>
                let a := freeSt .pixel_y (freeSt .pixel_x (freeSt .labels s.alloc))
                let boxes0 := (s.components.map fun c =>
                  (⟨c.x_min, c.y_min, c.x_max, c.y_max⟩ : BoundingBox)).take max_boxes
                if boxes0.length = 0 then ⟨false, st, freeSt .boxes a, none⟩
                else
                  let boxes1 := filter_and_merge_boxes boxes0 MAX_BOX_AREA
                  let boxes2 := filter_small_boxes boxes1 MIN_BOX_AREA
                  let boxes3 := filter_edge_touching_boxes boxes2 w h
                  if boxes3.length = 0 then ⟨false, st, freeSt .boxes a, none⟩
                  else
                    match boxes_to_json boxes3 a with
                    | .nullPtr a1 => ⟨false, st, freeSt .boxes a1, none⟩
                    | .str out a1 =>
                      if queue_send_ok then
                        ⟨true, st, freeSt .boxes (freeSt .json a1), some out⟩
                      else
                        ⟨true, st, freeSt .boxes (freeSt .json a1), none⟩

/-- `detect_motion` from motion_detector.c: the input guard, the (re)init
and background update, then the detection body `detect_motion_core`. -/
def detect_motion (st0 : DetectorState) (pixels : List Nat) (w h threshold : Nat)
    (queue_send_ok : Bool) (a0 : AllocState) : DetectResult :=
  if pixels.length = 0 ∨ w = 0 ∨ h = 0 then ⟨false, st0, a0, none⟩
  else
    let st1 := if bgNeedsInit st0 w h then init_background_model w h else st0
    let st := update_background_model st1 pixels w h
    detect_motion_core st pixels w h threshold queue_send_ok a0

set_option maxRecDepth 100000

/-- C3 (amended): for every frame presented while the model, after absorbing
that frame, has still not completed warm-up — i.e. strictly fewer than
`FRAME_INIT_COUNT - 1` frames processed beforehand — `detect_motion` returns
false, leaves `initialized` false and touches no heap.  (At exactly
`FRAME_INIT_COUNT - 1` prior frames the call itself completes warm-up and may
already report motion, see the counterexample.) -/
theorem c3_warmup_no_motion (st : DetectorState) (w h : Nat) (buf : List Nat)
    (hbuf : st.bg.background = some buf) (hw : st.bg.width = w)
    (hh : st.bg.height = h) (hinit : st.bg.initialized = false)
    (hcount : st.frame_counter + 1 < FRAME_INIT_COUNT)
    (pixels : List Nat) (hp : pixels.length = w * h) (hw0 : 0 < w) (hh0 : 0 < h)
    (threshold : Nat) (qok : Bool) (a : AllocState) :
    (detect_motion st pixels w h threshold qok a).motion = false ∧
      (detect_motion st pixels w h threshold qok a).st.bg.initialized = false ∧
      (detect_motion st pixels w h threshold qok a).alloc = a := by
  have hfne : ¬(pixels.length = 0 ∨ w = 0 ∨ h = 0) := by
    push_neg
    refine ⟨?_, by omega, by omega⟩
    rw [hp]
    positivity
  have hni : bgNeedsInit st w h = false := by
    simp [bgNeedsInit, hbuf, hw, hh]
  have hfc : st.frame_counter < FRAME_INIT_COUNT := by omega
  have hupd : (update_background_model st pixels w h).bg.initialized = false := by
    simp only [update_background_model, hfne, if_false, hni, Bool.false_eq_true,
      hfc, if_true]
    simp only [hinit, Bool.false_or, decide_eq_false_iff_not]
    omega
  simp only [detect_motion, detect_motion_core, hfne, if_false, hni,
    Bool.false_eq_true, hupd, if_true]
  exact ⟨trivial, trivial, trivial⟩

/-- Closed witness for `c3_warmup_no_motion`: the very first frame after a
fresh 2×2 model neither reports motion nor completes warm-up. -/
theorem c3_warmup_no_motion_witness :
    (detect_motion (init_background_model 2 2) [5, 5, 5, 5] 2 2 10 true
        ⟨[], [], []⟩).motion = false ∧
      (detect_motion (init_background_model 2 2) [5, 5, 5, 5] 2 2 10 true
          ⟨[], [], []⟩).st.bg.initialized = false ∧
      (detect_motion (init_background_model 2 2) [5, 5, 5, 5] 2 2 10 true
          ⟨[], [], []⟩).alloc = ⟨[], [], []⟩ :=
  c3_warmup_no_motion (init_background_model 2 2) 2 2 (List.replicate 4 0) rfl
    rfl rfl rfl (by decide) [5, 5, 5, 5] rfl (by decide) (by decide) 10 true
    ⟨[], [], []⟩

/-- Row-major synthetic frame: pixel `(x, y)` has value `f x y`. -/
def mkFrame (w h : Nat) (f : Nat → Nat → Nat) : List Nat :=
  (List.range (w * h)).map fun i => f (i % w) (i / w)

/-- An all-zero `w × h` frame. -/
def zeroFrame (w h : Nat) : List Nat := mkFrame w h fun _ _ => 0

/-- The detector state after nineteen all-zero 9×8 frames: one update short
of completing the twenty-frame warm-up. -/
def st_after_19 : DetectorState :=
  run_updates (init_background_model 9 8) (List.replicate 19 (zeroFrame 9 8)) 9 8

/-- A 9×8 frame whose interior (rows 1..6, cols 1..7) is 255 over the zero
background learned above. -/
def frame9x8_block : List Nat :=
  mkFrame 9 8 fun x y => if 1 ≤ x ∧ x ≤ 7 ∧ 1 ≤ y ∧ y ≤ 6 then 255 else 0

/-- C3 counterexample: after 19 processed frames (fewer than
`FRAME_INIT_COUNT = 20`, `initialized` still false) the next call to
`detect_motion` both completes warm-up (`initialized` becomes true) and
reports motion for that very frame — the update inside the call runs before
the warm-up check, so the claim's "returns false and initialized stays false
for every frame presented before warm-up completes" fails at the twentieth
frame. -/
theorem c3_counterexample :
    st_after_19.frame_counter = 19 ∧ 19 < FRAME_INIT_COUNT ∧
      st_after_19.bg.initialized = false ∧
      (detect_motion st_after_19 frame9x8_block 9 8 50 true
          ⟨[], [], []⟩).motion = true ∧
      (detect_motion st_after_19 frame9x8_block 9 8 50 true
          ⟨[], [], []⟩).st.bg.initialized = true := by
  refine ⟨by rfl, by decide, by rfl, by decide, by decide⟩

/-- A warmed-up 4×4 background model: twenty all-zero 4×4 frames. -/
def bg4_warm : DetectorState :=
  run_updates (init_background_model 4 4) (List.replicate 20 (zeroFrame 4 4)) 4 4

/-- A 4×4 frame differing from the warmed-up zero background exactly on the
2×2 block at rows/cols 1..2. -/
def frame4_block : List Nat :=
  mkFrame 4 4 fun x y => if 1 ≤ x ∧ x ≤ 2 ∧ 1 ≤ y ∧ y ≤ 2 then 255 else 0

/-- C1 counterexample: with a warmed-up 4×4 background and a frame in which
exactly the 2×2 block at rows/cols 1..2 differs from the background by more
than the threshold (the changed-pixel indices are exactly `5, 6, 9, 10`, also
against the post-update background the code actually compares with),
`detect_motion` reports NO motion: four changed pixels are below
`MIN_COMPONENT_PIXELS = 20`, so the function takes the early exit and never
produces the claimed box, serialization or motion report. -/
theorem c1_counterexample :
    bg4_warm.bg.initialized = true ∧
      (List.range 16).filter
          (pixel_changed
            ((update_background_model bg4_warm frame4_block 4 4).bg.background.getD [])
            frame4_block 50) = [5, 6, 9, 10] ∧
      (detect_motion bg4_warm frame4_block 4 4 50 true ⟨[], [], []⟩).motion = false := by
  refine ⟨by rfl, by decide, by decide⟩

/-- C1 (amended): on the 4×4 scenario the code reports no motion — the four
changed pixels are below `MIN_COMPONENT_PIXELS = 20` (early exit, heap left
empty); moreover, had the box `{1,1,2,2}` been formed, its computed area is
`(2-1)*(2-1) = 1 < MIN_BOX_AREA = 30`, so `filter_small_boxes` would remove
it (while the edge filter indeed would keep it, the box touching no edge of
the 4×4 frame); `boxes_to_json` on `[{1,1,2,2}]` does yield exactly the
claimed serialization. -/
theorem c1_block_frame_amended :
    ((List.range 16).filter
          (pixel_changed
            ((update_background_model bg4_warm frame4_block 4 4).bg.background.getD [])
            frame4_block 50)).length < MIN_COMPONENT_PIXELS ∧
      (detect_motion bg4_warm frame4_block 4 4 50 true ⟨[], [], []⟩).motion = false ∧
      (detect_motion bg4_warm frame4_block 4 4 50 true ⟨[], [], []⟩).alloc.live = [] ∧
      boxArea ⟨1, 1, 2, 2⟩ = 1 ∧
      filter_small_boxes [⟨1, 1, 2, 2⟩] MIN_BOX_AREA = [] ∧
      filter_edge_touching_boxes [⟨1, 1, 2, 2⟩] 4 4 = [⟨1, 1, 2, 2⟩] ∧
      boxes_to_json [⟨1, 1, 2, 2⟩] ⟨[], [], []⟩ =
        .str ("[\x7b\"x_min\":1,\"y_min\":1,\"x_max\":2,\"y_max\":2\x7d]")
          ⟨[], [Buf.json], []⟩ := by
  refine ⟨by decide, by decide, by decide, by decide, by decide, by decide, by rfl⟩


theorem allocSt_fst_true (t : Buf) (a : AllocState)
    (h : (allocSt t a).1 = true) :
    (allocSt t a).2.live = t :: a.live ∧ (allocSt t a).2.failed = a.failed := by
  rcases a with ⟨o, l, f⟩
  cases o with
  | nil => exact ⟨rfl, rfl⟩
  | cons ok rest =>
    cases ok
    · simp [allocSt] at h
    · exact ⟨rfl, rfl⟩

theorem allocSt_fst_false (t : Buf) (a : AllocState)
    (h : (allocSt t a).1 = false) :
    (allocSt t a).2.live = a.live ∧ (allocSt t a).2.failed = a.failed ++ [t] := by
  rcases a with ⟨o, l, f⟩
  cases o with
  | nil => simp [allocSt] at h
  | cons ok rest =>
    cases ok
    · exact ⟨rfl, rfl⟩
    · simp [allocSt] at h

theorem allocSt_eq_true (t : Buf) (a a1 : AllocState)
    (h : allocSt t a = (true, a1)) :
    a1.live = t :: a.live ∧ a1.failed = a.failed := by
  have h1 : (allocSt t a).1 = true := by rw [h]
  have := allocSt_fst_true t a h1
  rw [h] at this
  exact this

theorem allocSt_eq_false (t : Buf) (a a1 : AllocState)
    (h : allocSt t a = (false, a1)) :
    a1.live = a.live ∧ a1.failed = a.failed ++ [t] := by
  have h1 : (allocSt t a).1 = false := by rw [h]
  have := allocSt_fst_false t a h1
  rw [h] at this
  exact this

theorem reallocSt_eq_true (t : Buf) (a a1 : AllocState)
    (h : reallocSt t a = (true, a1)) :
    a1.live = a.live ∧ a1.failed = a.failed := by
  rcases a with ⟨o, l, f⟩
  cases o with
  | nil =>
    cases h
    exact ⟨rfl, rfl⟩
  | cons ok rest =>
    cases ok
    · simp [reallocSt] at h
    · cases h
      exact ⟨rfl, rfl⟩

theorem reallocSt_eq_false (t : Buf) (a a1 : AllocState)
    (h : reallocSt t a = (false, a1)) :
    a1.live = a.live ∧ a1.failed = a.failed ++ [t] := by
  rcases a with ⟨o, l, f⟩
  cases o with
  | nil => simp [reallocSt] at h
  | cons ok rest =>
    cases ok
    · cases h
      exact ⟨rfl, rfl⟩
    · simp [reallocSt] at h

theorem reallocSt_fst_true (t : Buf) (a : AllocState)
    (h : (reallocSt t a).1 = true) :
    (reallocSt t a).2.live = a.live ∧ (reallocSt t a).2.failed = a.failed := by
  rcases a with ⟨o, l, f⟩
  cases o with
  | nil => exact ⟨rfl, rfl⟩
  | cons ok rest =>
    cases ok
    · simp [reallocSt] at h
    · exact ⟨rfl, rfl⟩

theorem reallocSt_fst_false (t : Buf) (a : AllocState)
    (h : (reallocSt t a).1 = false) :
    (reallocSt t a).2.live = a.live ∧
      (reallocSt t a).2.failed = a.failed ++ [t] := by
  rcases a with ⟨o, l, f⟩
  cases o with
  | nil => simp [reallocSt] at h
  | cons ok rest =>
    cases ok
    · exact ⟨rfl, rfl⟩
    · simp [reallocSt] at h

theorem freeSt_live (t : Buf) (a : AllocState) :
    (freeSt t a).live = a.live.erase t := rfl

theorem freeSt_failed (t : Buf) (a : AllocState) :
    (freeSt t a).failed = a.failed := rfl

/-- Heap behaviour of the component loop: entered with exactly the four
long-lived buffers allocated, it either completes with the same live set and
no new failures, or (on a BFS-queue allocation failure) frees everything and
aborts. -/
theorem ccl_loop_alloc (ps bg : List Nat) (w h thr : Nat) :
    ∀ (xs : List (Nat × Nat)) (s : CclState),
      s.alloc.live = [Buf.labels, Buf.pixel_y, Buf.pixel_x, Buf.boxes] →
      (∀ s', ccl_loop ps bg w h thr xs s = .ok s' →
          s'.alloc.live = [Buf.labels, Buf.pixel_y, Buf.pixel_x, Buf.boxes] ∧
          s'.alloc.failed = s.alloc.failed) ∧
      (∀ a', ccl_loop ps bg w h thr xs s = .fail a' → a'.live = []) := by
  intro xs
  induction xs with
  | nil =>
    intro s hlive
    constructor
    · intro s' hok
      simp only [ccl_loop] at hok
      cases hok
      exact ⟨hlive, rfl⟩
    · intro a' hfail
      simp only [ccl_loop] at hfail
      cases hfail
  | cons xy rest ih =>
    intro s hlive
    obtain ⟨x, y⟩ := xy
    have hqtrue : ∀ hq : ¬((allocSt Buf.queue_x s.alloc).1 = false ∨
        (allocSt Buf.queue_y (allocSt Buf.queue_x s.alloc).2).1 = false),
        (allocSt Buf.queue_x s.alloc).1 = true ∧
        (allocSt Buf.queue_y (allocSt Buf.queue_x s.alloc).2).1 = true := by
      intro hq
      constructor
      · cases hc : (allocSt Buf.queue_x s.alloc).1 with
        | false => exact absurd (Or.inl hc) hq
        | true => rfl
      · cases hc : (allocSt Buf.queue_y (allocSt Buf.queue_x s.alloc).2).1 with
        | false => exact absurd (Or.inr hc) hq
        | true => rfl
    have hfree_spec : ∀ hq1 : (allocSt Buf.queue_x s.alloc).1 = true,
        ∀ hq2 : (allocSt Buf.queue_y (allocSt Buf.queue_x s.alloc).2).1 = true,
        (freeSt Buf.queue_y (freeSt Buf.queue_x
            (allocSt Buf.queue_y (allocSt Buf.queue_x s.alloc).2).2)).live =
          [Buf.labels, Buf.pixel_y, Buf.pixel_x, Buf.boxes] ∧
        (freeSt Buf.queue_y (freeSt Buf.queue_x
            (allocSt Buf.queue_y (allocSt Buf.queue_x s.alloc).2).2)).failed =
          s.alloc.failed := by
      intro hq1 hq2
      obtain ⟨hl1, hf1⟩ := allocSt_fst_true _ _ hq1
      obtain ⟨hl2, hf2⟩ := allocSt_fst_true _ _ hq2
      constructor
      · simp only [freeSt_live, hl2, hl1, hlive]
        decide
      · simp only [freeSt_failed, hf2, hf1]
    constructor
    · intro s' hok
      simp only [ccl_loop] at hok
      split at hok
      · exact (ih s hlive).1 s' hok
      · split at hok
        · cases hok
          exact ⟨hlive, rfl⟩
        · split at hok
          · cases hok
          · rename_i hq
            obtain ⟨hq1, hq2⟩ := hqtrue hq
            obtain ⟨hfl, hff⟩ := hfree_spec hq1 hq2
            split at hok
            · have hrec := (ih _ hfl).1 s' hok
              exact ⟨hrec.1, hrec.2.trans hff⟩
            · have hrec := (ih _ hfl).1 s' hok
              exact ⟨hrec.1, hrec.2.trans hff⟩
    · intro a' hfail
      simp only [ccl_loop] at hfail
      split at hfail
      · exact (ih s hlive).2 a' hfail
      · split at hfail
        · cases hfail
        · split at hfail
          · rename_i hq
            cases hfail
            cases hc1 : (allocSt Buf.queue_x s.alloc).1 with
            | false =>
              obtain ⟨hl1, _⟩ := allocSt_fst_false _ _ hc1
              cases hc2 : (allocSt Buf.queue_y (allocSt Buf.queue_x s.alloc).2).1 with
              | false =>
                obtain ⟨hl2, _⟩ := allocSt_fst_false _ _ hc2
                rw [if_neg Bool.false_ne_true, if_neg Bool.false_ne_true]
                simp only [freeSt_live, hl2, hl1, hlive]
                decide
              | true =>
                obtain ⟨hl2, _⟩ := allocSt_fst_true _ _ hc2
                rw [if_pos rfl, if_neg Bool.false_ne_true]
                simp only [freeSt_live, hl2, hl1, hlive]
                decide
            | true =>
              obtain ⟨hl1, _⟩ := allocSt_fst_true _ _ hc1
              cases hc2 : (allocSt Buf.queue_y (allocSt Buf.queue_x s.alloc).2).1 with
              | false =>
                obtain ⟨hl2, _⟩ := allocSt_fst_false _ _ hc2
                rw [if_neg Bool.false_ne_true, if_pos rfl]
                simp only [freeSt_live, hl2, hl1, hlive]
                decide
              | true =>
                exact absurd hq (by simp [hc1, hc2])
          · rename_i hq
            obtain ⟨hq1, hq2⟩ := hqtrue hq
            obtain ⟨hfl, hff⟩ := hfree_spec hq1 hq2
            split at hfail
            · exact (ih _ hfl).2 a' hfail
            · exact (ih _ hfl).2 a' hfail

/-- Heap behaviour of the per-box JSON write loop: the buffer stays live
through every successful (re)write; on a doubling failure the JSON buffer is
freed and exactly one `json_grow` failure is recorded. -/
theorem json_write_boxes_alloc :
    ∀ (bs : List BoundingBox) (out : String) (rem est : Nat) (a : AllocState),
      (∀ out' rem' est' a', json_write_boxes bs out rem est a = .ok out' rem' est' a' →
          a'.live = a.live ∧ a'.failed = a.failed) ∧
      (∀ a', json_write_boxes bs out rem est a = .fail a' →
          a'.live = a.live.erase Buf.json ∧
          a'.failed = a.failed ++ [Buf.json_grow]) := by
  intro bs
  induction bs with
  | nil =>
    intro out rem est a
    constructor
    · intro out' rem' est' a' hok
      simp only [json_write_boxes] at hok
      cases hok
      exact ⟨rfl, rfl⟩
    · intro a' hfail
      simp only [json_write_boxes] at hfail
      cases hfail
  | cons b rest ih =>
    intro out rem est a
    constructor
    · intro out' rem' est' a' hok
      simp only [json_write_boxes] at hok
      split at hok
      · split at hok
        · cases hok
        · rename_i a1 heq
          obtain ⟨hrl, hrf⟩ := reallocSt_eq_true _ _ _ heq
          split at hok
          · have hrec := (ih _ _ _ _).1 _ _ _ _ hok
            exact ⟨hrec.1.trans hrl, hrec.2.trans hrf⟩
          · have hrec := (ih _ _ _ _).1 _ _ _ _ hok
            exact ⟨hrec.1.trans hrl, hrec.2.trans hrf⟩
      · split at hok
        · exact (ih _ _ _ _).1 _ _ _ _ hok
        · exact (ih _ _ _ _).1 _ _ _ _ hok
    · intro a' hfail
      simp only [json_write_boxes] at hfail
      split at hfail
      · split at hfail
        · rename_i a1 heq
          cases hfail
          obtain ⟨hrl, hrf⟩ := reallocSt_eq_false _ _ _ heq
          constructor
          · rw [freeSt_live, hrl]
          · rw [freeSt_failed, hrf]
        · rename_i a1 heq
          obtain ⟨hrl, hrf⟩ := reallocSt_eq_true _ _ _ heq
          split at hfail
          · have hrec := (ih _ _ _ _).2 _ hfail
            refine ⟨?_, ?_⟩
            · rw [hrec.1, hrl]
            · rw [hrec.2, hrf]
          · have hrec := (ih _ _ _ _).2 _ hfail
            refine ⟨?_, ?_⟩
            · rw [hrec.1, hrl]
            · rw [hrec.2, hrf]
      · split at hfail
        · exact (ih _ _ _ _).2 _ hfail
        · exact (ih _ _ _ _).2 _ hfail

/-- Heap behaviour of `boxes_to_json` on a nonempty box list: a NULL result
leaves the live set unchanged (a buffer that existed was freed first); a
non-NULL result adds the `json` buffer to the live set, with at most a
tolerated trimming failure recorded. -/
theorem boxes_to_json_alloc (bs : List BoundingBox) (a : AllocState)
    (hbs : ¬ bs.length = 0) :
    (∀ sOut a', boxes_to_json bs a = .str sOut a' →
        a'.live = Buf.json :: a.live ∧
        (a'.failed = a.failed ∨ a'.failed = a.failed ++ [Buf.json_shrink])) ∧
    (∀ a', boxes_to_json bs a = .nullPtr a' → a'.live = a.live) := by
  constructor
  · intro sOut a' hstr
    simp only [boxes_to_json] at hstr
    split at hstr
    · rename_i h0
      exact absurd h0 hbs
    · split at hstr
      · cases hstr
      · rename_i a1 heq
        obtain ⟨hal, haf⟩ := allocSt_eq_true _ _ _ heq
        split at hstr
        · cases hstr
        · rename_i out2 rem2 est2 a2 heq2
          have hw := ((json_write_boxes_alloc bs _ _ _ a1).1 _ _ _ _ heq2)
          cases hstr
          cases hS : (reallocSt Buf.json_shrink a2).1 with
          | true =>
            obtain ⟨h3l, h3f⟩ := reallocSt_fst_true _ _ hS
            refine ⟨?_, Or.inl ?_⟩
            · rw [h3l, hw.1, hal]
            · rw [h3f, hw.2, haf]
          | false =>
            obtain ⟨h3l, h3f⟩ := reallocSt_fst_false _ _ hS
            refine ⟨?_, Or.inr ?_⟩
            · rw [h3l, hw.1, hal]
            · rw [h3f, hw.2, haf]
  · intro a' hnull
    simp only [boxes_to_json] at hnull
    split at hnull
    · rename_i h0
      exact absurd h0 hbs
    · split at hnull
      · rename_i a1 heq
        cases hnull
        exact (allocSt_eq_false _ _ _ heq).1
      · rename_i a1 heq
        obtain ⟨hal, haf⟩ := allocSt_eq_true _ _ _ heq
        split at hnull
        · rename_i a2 heq2
          cases hnull
          have hw := ((json_write_boxes_alloc bs _ _ _ a1).2 _ heq2)
          rw [hw.1, hal]
          simp
        · cases hnull

/-- Heap summary of a whole `detect_motion` call starting from an empty heap:
no buffer survives the call under any oracle (a successful queue hand-off
transfers the JSON buffer's ownership out of the function), and a motion
report can only coexist with tolerated trimming-realloc failures. -/
theorem detect_motion_core_heap (stU : DetectorState) (pixels : List Nat)
    (w h threshold : Nat) (qok : Bool) (oracle : List Bool) :
    ∀ r : DetectResult,
      detect_motion_core stU pixels w h threshold qok ⟨oracle, [], []⟩ = r →
      r.alloc.live = [] ∧
        (r.motion = true → ∀ t ∈ r.alloc.failed, t = Buf.json_shrink) := by
  intro r heq
  delta detect_motion_core at heq
  dsimp only [] at heq
  split at heq
  · subst heq
    exact ⟨rfl, fun hmm => absurd hmm Bool.false_ne_true⟩
  · split at heq
    · rename_i hbF
      subst heq
      exact ⟨(allocSt_fst_false _ _ hbF).1, fun hmm => absurd hmm Bool.false_ne_true⟩
    · rename_i hbF'
      have hbT : (allocSt Buf.boxes ⟨oracle, [], []⟩).1 = true := by
        cases hc : (allocSt Buf.boxes ⟨oracle, [], []⟩).1 with
        | false => exact absurd hc hbF'
        | true => rfl
      obtain ⟨hbL, hbFl⟩ := allocSt_fst_true _ _ hbT
      split at heq
      · rename_i hxy
        subst heq
        refine ⟨?_, fun hmm => absurd hmm Bool.false_ne_true⟩
        cases hcx : (allocSt Buf.pixel_x (allocSt Buf.boxes ⟨oracle, [], []⟩).2).1 with
        | false =>
          obtain ⟨hxL, _⟩ := allocSt_fst_false _ _ hcx
          cases hcy : (allocSt Buf.pixel_y
              (allocSt Buf.pixel_x (allocSt Buf.boxes ⟨oracle, [], []⟩).2).2).1 with
          | false =>
            obtain ⟨hyL, _⟩ := allocSt_fst_false _ _ hcy
            show (freeSt Buf.pixel_y (freeSt Buf.pixel_x (freeSt Buf.boxes
              (allocSt Buf.pixel_y (allocSt Buf.pixel_x
                (allocSt Buf.boxes ⟨oracle, [], []⟩).2).2).2))).live = []
            simp only [freeSt_live, hyL, hxL, hbL]
            decide
          | true =>
            obtain ⟨hyL, _⟩ := allocSt_fst_true _ _ hcy
            show (freeSt Buf.pixel_y (freeSt Buf.pixel_x (freeSt Buf.boxes
              (allocSt Buf.pixel_y (allocSt Buf.pixel_x
                (allocSt Buf.boxes ⟨oracle, [], []⟩).2).2).2))).live = []
            simp only [freeSt_live, hyL, hxL, hbL]
            decide
        | true =>
          obtain ⟨hxL, _⟩ := allocSt_fst_true _ _ hcx
          cases hcy : (allocSt Buf.pixel_y
              (allocSt Buf.pixel_x (allocSt Buf.boxes ⟨oracle, [], []⟩).2).2).1 with
          | false =>
            obtain ⟨hyL, _⟩ := allocSt_fst_false _ _ hcy
            show (freeSt Buf.pixel_y (freeSt Buf.pixel_x (freeSt Buf.boxes
              (allocSt Buf.pixel_y (allocSt Buf.pixel_x
                (allocSt Buf.boxes ⟨oracle, [], []⟩).2).2).2))).live = []
            simp only [freeSt_live, hyL, hxL, hbL]
            decide
          | true =>
            exact absurd hxy (by simp [hcx, hcy])
      · rename_i hxy
        have hxT : (allocSt Buf.pixel_x (allocSt Buf.boxes ⟨oracle, [], []⟩).2).1 = true := by
          cases hc : (allocSt Buf.pixel_x (allocSt Buf.boxes ⟨oracle, [], []⟩).2).1 with
          | false => exact absurd (Or.inl hc) hxy
          | true => rfl
        have hyT : (allocSt Buf.pixel_y
            (allocSt Buf.pixel_x (allocSt Buf.boxes ⟨oracle, [], []⟩).2).2).1 = true := by
          cases hc : (allocSt Buf.pixel_y
              (allocSt Buf.pixel_x (allocSt Buf.boxes ⟨oracle, [], []⟩).2).2).1 with
          | false => exact absurd (Or.inr hc) hxy
          | true => rfl
        obtain ⟨hxL, hxF⟩ := allocSt_fst_true _ _ hxT
        obtain ⟨hyL, hyF⟩ := allocSt_fst_true _ _ hyT
        split at heq
        · subst heq
          refine ⟨?_, fun hmm => absurd hmm Bool.false_ne_true⟩
          show (freeSt Buf.pixel_y (freeSt Buf.pixel_x (freeSt Buf.boxes
            (allocSt Buf.pixel_y (allocSt Buf.pixel_x
              (allocSt Buf.boxes ⟨oracle, [], []⟩).2).2).2))).live = []
          simp only [freeSt_live, hyL, hxL, hbL]
          decide
        · split at heq
          · rename_i hlF
            subst heq
            refine ⟨?_, fun hmm => absurd hmm Bool.false_ne_true⟩
            obtain ⟨hlL, _⟩ := allocSt_fst_false _ _ hlF
            show (freeSt Buf.pixel_y (freeSt Buf.pixel_x (freeSt Buf.boxes
              (allocSt Buf.labels (allocSt Buf.pixel_y (allocSt Buf.pixel_x
                (allocSt Buf.boxes ⟨oracle, [], []⟩).2).2).2).2))).live = []
            simp only [freeSt_live, hlL, hyL, hxL, hbL]
            decide
          · rename_i hlF'
            have hlT : (allocSt Buf.labels (allocSt Buf.pixel_y
                (allocSt Buf.pixel_x (allocSt Buf.boxes ⟨oracle, [], []⟩).2).2).2).1 = true := by
              cases hc : (allocSt Buf.labels (allocSt Buf.pixel_y
                  (allocSt Buf.pixel_x (allocSt Buf.boxes ⟨oracle, [], []⟩).2).2).2).1 with
              | false => exact absurd hc hlF'
              | true => rfl
            obtain ⟨hlL, hlF⟩ := allocSt_fst_true _ _ hlT
            have hl0 : (allocSt Buf.labels (allocSt Buf.pixel_y
                (allocSt Buf.pixel_x (allocSt Buf.boxes ⟨oracle, [], []⟩).2).2).2).2.live =
                [Buf.labels, Buf.pixel_y, Buf.pixel_x, Buf.boxes] := by
              rw [hlL, hyL, hxL, hbL]
            have hf0 : (allocSt Buf.labels (allocSt Buf.pixel_y
                (allocSt Buf.pixel_x (allocSt Buf.boxes ⟨oracle, [], []⟩).2).2).2).2.failed =
                [] := by
              rw [hlF, hyF, hxF, hbFl]
            split at heq
            · rename_i a' heqc
              subst heq
              have := (ccl_loop_alloc _ _ w h threshold _ _ hl0).2 a' heqc
              exact ⟨this, fun hmm => absurd hmm Bool.false_ne_true⟩
            · rename_i s' heqc
              obtain ⟨hsL, hsF⟩ := (ccl_loop_alloc _ _ w h threshold _ _ hl0).1 s' heqc
              have hAL : (freeSt Buf.pixel_y (freeSt Buf.pixel_x
                  (freeSt Buf.labels s'.alloc))).live = [Buf.boxes] := by
                simp only [freeSt_live, hsL]
                decide
              have hAF : (freeSt Buf.pixel_y (freeSt Buf.pixel_x
                  (freeSt Buf.labels s'.alloc))).failed = [] := by
                simp only [freeSt_failed]
                rw [hsF, hf0]
              split at heq
              · subst heq
                refine ⟨?_, fun hmm => absurd hmm Bool.false_ne_true⟩
                show (freeSt Buf.boxes (freeSt Buf.pixel_y (freeSt Buf.pixel_x
                  (freeSt Buf.labels s'.alloc)))).live = []
                simp only [freeSt_live]
                simp only [freeSt_live] at hAL
                rw [hAL]
                decide
              · split at heq
                · subst heq
                  refine ⟨?_, fun hmm => absurd hmm Bool.false_ne_true⟩
                  show (freeSt Buf.boxes (freeSt Buf.pixel_y (freeSt Buf.pixel_x
                    (freeSt Buf.labels s'.alloc)))).live = []
                  simp only [freeSt_live]
                  simp only [freeSt_live] at hAL
                  rw [hAL]
                  decide
                · rename_i hb3
                  split at heq
                  · rename_i a1 heqj
                    subst heq
                    have hnull := ((boxes_to_json_alloc _ _ hb3).2 a1 heqj)
                    refine ⟨?_, fun hmm => absurd hmm Bool.false_ne_true⟩
                    show (freeSt Buf.boxes a1).live = []
                    rw [freeSt_live, hnull, hAL]
                    decide
                  · rename_i out1 a1 heqj
                    obtain ⟨hjL, hjF⟩ := ((boxes_to_json_alloc _ _ hb3).1 out1 a1 heqj)
                    have hlive_end : (freeSt Buf.boxes (freeSt Buf.json a1)).live = [] := by
                      simp only [freeSt_live]
                      rw [hjL, hAL]
                      decide
                    have hfail_end : ∀ t ∈ a1.failed, t = Buf.json_shrink := by
                      rcases hjF with hjF | hjF
                      · rw [hjF, hAF]
                        intro t ht
                        cases ht
                      · rw [hjF, hAF]
                        intro t ht
                        simp at ht
                        rw [ht]
                    split at heq
                    · subst heq
                      exact ⟨hlive_end, fun _ => hfail_end⟩
                    · subst heq
                      exact ⟨hlive_end, fun _ => hfail_end⟩

/-- Heap summary of a whole `detect_motion` call starting from an empty heap:
no buffer survives the call under any oracle (a successful queue hand-off
transfers the JSON buffer ownership out of the function), and a motion
report can only coexist with tolerated trimming-realloc failures. -/
theorem detect_motion_heap (st0 : DetectorState) (pixels : List Nat)
    (w h threshold : Nat) (qok : Bool) (oracle : List Bool) :
    (detect_motion st0 pixels w h threshold qok ⟨oracle, [], []⟩).alloc.live = [] ∧
      ((detect_motion st0 pixels w h threshold qok ⟨oracle, [], []⟩).motion = true →
        ∀ t ∈ (detect_motion st0 pixels w h threshold qok ⟨oracle, [], []⟩).alloc.failed,
          t = Buf.json_shrink) := by
  by_cases hg : pixels.length = 0 ∨ w = 0 ∨ h = 0
  · have hg' : pixels = [] ∨ w = 0 ∨ h = 0 := by
      rcases hg with hg | hg
      · exact Or.inl (List.length_eq_zero.mp hg)
      · exact Or.inr hg
    constructor
    · simp [detect_motion, hg']
    · intro hmm
      simp [detect_motion, hg'] at hmm
  · simp only [detect_motion, hg, if_false]
    exact detect_motion_core_heap _ pixels w h threshold qok oracle _ rfl

/-- C7 (amended): if any allocation in `detect_motion` other than the final
size-trimming `realloc` of the JSON buffer fails — the bounding-box array,
the pixel-tracking buffers, the CCL label map, a BFS queue, the JSON buffer
or its doubling `realloc` — the call reports no motion and releases every
buffer it acquired for the frame.  (A failure of the trimming `realloc` alone
is tolerated: the untrimmed buffer is used and motion is still reported, see
the counterexample.) -/
theorem c7_alloc_failure_no_motion (st0 : DetectorState) (pixels : List Nat)
    (w h threshold : Nat) (qok : Bool) (oracle : List Bool)
    (hfail : ∃ t ∈ (detect_motion st0 pixels w h threshold qok
        ⟨oracle, [], []⟩).alloc.failed, t ≠ Buf.json_shrink) :
    (detect_motion st0 pixels w h threshold qok ⟨oracle, [], []⟩).motion = false ∧
      (detect_motion st0 pixels w h threshold qok ⟨oracle, [], []⟩).alloc.live = [] := by
  obtain ⟨hlive, hmotion⟩ := detect_motion_heap st0 pixels w h threshold qok oracle
  refine ⟨?_, hlive⟩
  cases hm : (detect_motion st0 pixels w h threshold qok ⟨oracle, [], []⟩).motion with
  | false => rfl
  | true =>
    obtain ⟨t, ht, hne⟩ := hfail
    exact absurd (hmotion hm t ht) hne

/-- Closed witness for `c7_alloc_failure_no_motion`: the very first
allocation (the bounding-box array) fails. -/
theorem c7_alloc_failure_no_motion_witness :
    (detect_motion bg4_warm frame4_block 4 4 50 true ⟨[false], [], []⟩).motion = false ∧
      (detect_motion bg4_warm frame4_block 4 4 50 true ⟨[false], [], []⟩).alloc.live = [] :=
  c7_alloc_failure_no_motion bg4_warm frame4_block 4 4 50 true [false] (by decide)

/-- C7 counterexample: an oracle that fails exactly the final trimming
`realloc` of the JSON buffer (the eighth allocation event of this run).  An
allocation inside `detect_motion`'s serialization fails, yet the function
still reports motion — the claim's "any allocation failure yields no motion"
does not hold for this realloc; no buffer leaks. -/
theorem c7_counterexample :
    (detect_motion st_after_19 frame9x8_block 9 8 50 true
        ⟨[true, true, true, true, true, true, true, false], [], []⟩).alloc.failed =
      [Buf.json_shrink] ∧
      (detect_motion st_after_19 frame9x8_block 9 8 50 true
          ⟨[true, true, true, true, true, true, true, false], [], []⟩).motion = true ∧
      (detect_motion st_after_19 frame9x8_block 9 8 50 true
          ⟨[true, true, true, true, true, true, true, false], [], []⟩).alloc.live = [] := by
  refine ⟨by decide, by decide, by decide⟩

/-!
Upload manager (upload_manager.c).
-/

/-- The `esp_err_t` values the embedded components return. -/
inductive EspErr where
  | ok
  | fail
  | invalid_state
  | err_no_mem
  | err_timeout
  | err_not_found
deriving DecidableEq, Repr

/-- Scalar fields of the singleton `upload_manager_t` (upload_manager.c).
The RTOS handles (`config_mutex`, `upload_task_handle`, `event_group`) are
pointers whose pointees live outside the struct; the event bits an operation
raises are returned alongside the new state, and the config mutex is
modelled as uncontended (the sequential embedding always acquires it within
the 100 ms timeout). -/
structure UploadManager where
  upload_interval : Nat
  last_upload_time : Nat
  is_initialized : Bool
  failed_attempts : Nat
  max_backoff_ms : Nat
  initial_backoff_ms : Nat
deriving DecidableEq, Repr

def UPLOAD_TRIGGER_BIT : Nat := 1
def UPLOAD_CONFIG_BIT : Nat := 2

/-- `min_uint32` from upload_manager.c. -/
def min_uint32 (a b : Nat) : Nat := if a < b then a else b

/-- `upload_manager_set_interval` from upload_manager.c: on an initialized
manager, stores the new interval, resets `last_upload_time` to the current
tick count and raises `UPLOAD_CONFIG_BIT`; on an uninitialized manager,
returns `ESP_ERR_INVALID_STATE` and changes nothing. -/
def upload_manager_set_interval (m : UploadManager) (seconds now : Nat) :
    EspErr × UploadManager × Nat :=
  if m.is_initialized = false then (.invalid_state, m, 0)
  else
    (.ok, { m with upload_interval := seconds, last_upload_time := now },
      UPLOAD_CONFIG_BIT)

/-- `upload_manager_notify_new_file` from upload_manager.c: on an
initialized manager, real-time mode (`upload_interval == 0`) forwards the
path to `queue_file_upload` and returns its result (`queue_result` here);
interval mode records nothing and returns `ESP_OK`.  The returned `Bool`
reports whether the enqueue entry point was invoked. -/
def upload_manager_notify_new_file (m : UploadManager) (queue_result : EspErr) :
    EspErr × Bool :=
  if m.is_initialized = false then (.invalid_state, false)
  else if m.upload_interval = 0 then (queue_result, true)
  else (.ok, false)

/-- The failure branch of `upload_task` (upload_manager.c): increment
`failed_attempts` (a `uint8_t`, hence `% 256`), compute
`initial_backoff_ms * (1 << (failed_attempts - 1))` in `uint32_t`
arithmetic (the `int` shift `1 << k` is well defined for `k ≤ 30`), clamp
with `min_uint32` against `max_backoff_ms`.  Returns the new state and the
millisecond delay passed to `vTaskDelay`. -/
def upload_failure_backoff (m : UploadManager) : UploadManager × Nat :=
  let attempts := (m.failed_attempts + 1) % 256
  let raw := m.initial_backoff_ms * (1 <<< (attempts - 1)) % SZ
  ({ m with failed_attempts := attempts }, min_uint32 raw m.max_backoff_ms)

/-- C5 (amended): for `1 ≤ n ≤ 31` consecutive failures with no `uint32`
overflow in `initial_backoff_ms * 2^(n-1)`, the backoff slept after the
`n`-th failure is `min(initial_backoff_ms * 2^(n-1), max_backoff_ms)`; in
particular 4000 ms after 3 failures and 32000 ms (capped) after 6 with the
default parameters.  (Without the overflow proviso the claim fails: at
`n = 30` the `uint32` product wraps to 0, see the counterexample.) -/
theorem c5_backoff_formula :
    (∀ (n : Nat) (m : UploadManager), m.failed_attempts = n - 1 →
        1 ≤ n → n ≤ 31 → m.initial_backoff_ms * 2 ^ (n - 1) < SZ →
        (upload_failure_backoff m).2 =
            min (m.initial_backoff_ms * 2 ^ (n - 1)) m.max_backoff_ms ∧
          (upload_failure_backoff m).1.failed_attempts = n) ∧
      (upload_failure_backoff ⟨0, 0, true, 2, 32000, 1000⟩).2 = 4000 ∧
      (upload_failure_backoff ⟨0, 0, true, 5, 32000, 1000⟩).2 = 32000 := by
  refine ⟨?_, by decide, by decide⟩
  intro n m hfa h1 h31 hov
  have hmod : (m.failed_attempts + 1) % 256 = n := by
    rw [hfa]
    omega
  simp only [upload_failure_backoff, hmod, Nat.one_shiftLeft]
  have hraw : m.initial_backoff_ms * 2 ^ (n - 1) % SZ =
      m.initial_backoff_ms * 2 ^ (n - 1) := Nat.mod_eq_of_lt hov
  rw [hraw]
  constructor
  · simp only [min_uint32]
    split <;> omega
  · trivial

/-- Closed witness for the universally quantified part of
`c5_backoff_formula`, at `n = 3` with the default parameters. -/
theorem c5_backoff_formula_witness :
    (upload_failure_backoff ⟨0, 0, true, 2, 32000, 1000⟩).2 =
      min (1000 * 2 ^ 2) 32000 := by
  have h := (c5_backoff_formula.1 3 ⟨0, 0, true, 2, 32000, 1000⟩ rfl
    (by decide) (by decide) (by decide)).1
  exact h

/-- C5 counterexample: at the 30th consecutive failure with the default
parameters, `1000 * 2^29` wraps to 0 modulo `2^32`, so the code sleeps 0 ms
where the claimed formula `min(1000 * 2^29, 32000)` gives 32000 ms. -/
theorem c5_counterexample :
    (upload_failure_backoff ⟨0, 0, true, 29, 32000, 1000⟩).2 = 0 ∧
      min (1000 * 2 ^ 29) 32000 = 32000 ∧
      (upload_failure_backoff ⟨0, 0, true, 29, 32000, 1000⟩).2 ≠
        min (1000 * 2 ^ 29) 32000 := by
  refine ⟨by decide, by decide, by decide⟩

/-- C6: on an initialized manager, `notify_new_file` in real-time mode
(`interval == 0`) synchronously invokes the transfer collaborator's enqueue
entry point and returns its result; in interval mode it records nothing,
performs no enqueue, and returns `ESP_OK`. -/
theorem c6_notify_new_file (m : UploadManager) (qres : EspErr)
    (hinit : m.is_initialized = true) :
    (m.upload_interval = 0 →
        upload_manager_notify_new_file m qres = (qres, true)) ∧
      (m.upload_interval ≠ 0 →
        upload_manager_notify_new_file m qres = (.ok, false)) := by
  constructor <;> intro h <;> simp [upload_manager_notify_new_file, hinit, h]

/-- Closed witness for `c6_notify_new_file`: real-time mode enqueues and
propagates the result, a 300-second interval does not enqueue. -/
theorem c6_notify_new_file_witness :
    upload_manager_notify_new_file ⟨0, 0, true, 0, 32000, 1000⟩ .fail =
        (.fail, true) ∧
      upload_manager_notify_new_file ⟨300, 0, true, 0, 32000, 1000⟩ .fail =
        (.ok, false) :=
  ⟨(c6_notify_new_file ⟨0, 0, true, 0, 32000, 1000⟩ .fail rfl).1 rfl,
    (c6_notify_new_file ⟨300, 0, true, 0, 32000, 1000⟩ .fail rfl).2 (by decide)⟩

/-- C10: a successful `upload_manager_set_interval` changes exactly
`upload_interval` and `last_upload_time`; `failed_attempts`,
`initial_backoff_ms`, `max_backoff_ms` and `is_initialized` are untouched
(reconfiguring the interval does not reset the backoff state), and the
config-changed event bit is raised. -/
theorem c10_set_interval_frame (m : UploadManager) (seconds now : Nat)
    (hinit : m.is_initialized = true) :
    upload_manager_set_interval m seconds now =
        (.ok, { m with upload_interval := seconds, last_upload_time := now },
          UPLOAD_CONFIG_BIT) ∧
      (upload_manager_set_interval m seconds now).2.1.failed_attempts =
        m.failed_attempts ∧
      (upload_manager_set_interval m seconds now).2.1.initial_backoff_ms =
        m.initial_backoff_ms ∧
      (upload_manager_set_interval m seconds now).2.1.max_backoff_ms =
        m.max_backoff_ms ∧
      (upload_manager_set_interval m seconds now).2.1.is_initialized =
        m.is_initialized ∧
      (upload_manager_set_interval m seconds now).2.1.upload_interval = seconds ∧
      (upload_manager_set_interval m seconds now).2.1.last_upload_time = now := by
  simp [upload_manager_set_interval, hinit]

/-- Closed witness for `c10_set_interval_frame` at a concrete manager. -/
theorem c10_set_interval_frame_witness :
    upload_manager_set_interval ⟨0, 17, true, 4, 32000, 1000⟩ 300 99 =
        (.ok, ⟨300, 99, true, 4, 32000, 1000⟩, UPLOAD_CONFIG_BIT) ∧
      (upload_manager_set_interval ⟨0, 17, true, 4, 32000, 1000⟩ 300 99).2.1.failed_attempts = 4 :=
  ⟨(c10_set_interval_frame ⟨0, 17, true, 4, 32000, 1000⟩ 300 99 rfl).1,
    (c10_set_interval_frame ⟨0, 17, true, 4, 32000, 1000⟩ 300 99 rfl).2.1⟩

/-!
Camera capture controller (camera_interface.c).
-/

/-- The physical sensor configuration after the most recent driver call:
low-resolution scanning format, high-resolution capture format, or
deinitialised (a failed `reinit_camera` always ends in `esp_camera_deinit`
before reporting failure). -/
inductive CamFormat where
  | low
  | high
  | deinit
deriving DecidableEq, Repr

/-- The hardware and RTOS state `camera_manager_capture` touches. -/
structure CamState where
  format : CamFormat
  mutexHeld : Bool
  sensorOn : Bool
  fbHeld : Bool
  fileOpen : Bool
deriving DecidableEq, Repr

/-- The observable events of one `camera_manager_capture` run, in execution
order. -/
inductive CamEvent where
  | muxTake
  | reinitHigh (ok : Bool)
  | fbGet (ok : Bool)
  | fileOpenEvt (ok : Bool)
  | fileWrite (ok : Bool)
  | fbReturn
  | fileClose
  | reinitLow (ok : Bool)
  | muxGive
deriving DecidableEq, Repr

/-- Which steps of the capture sequence succeed.  The first four are the
intermediate steps the claim quantifies over; `low_ok` is the outcome of the
final low-resolution restore (`reinit_camera(&cfg_low)` with its internal
bounded retries). -/
structure CamEnv where
  high_ok : Bool
  fb_ok : Bool
  open_ok : Bool
  write_ok : Bool
  low_ok : Bool
deriving DecidableEq, Repr

/-- `reinit_camera(cfg)` from camera_interface.c: `esp_camera_deinit`
followed by up to four `esp_camera_init` attempts with backoff; on success
the sensor is in the target format, on overall failure it is left
deinitialised. -/
def reinit_camera (target : CamFormat) (ok : Bool) (s : CamState) : CamState :=
  if ok then { s with format := target } else { s with format := .deinit }

/-- Steps 2–5 of `camera_manager_capture` (high-res switch, frame grab, file
open, SD write), up to the `cleanup` label: returns `rc`, the state at
`cleanup`, and the events so far.  The error codes are the source's:
`ESP_FAIL` for re-init/write failure, `ESP_ERR_NO_MEM` when the driver
returns no frame buffer, `ESP_ERR_NOT_FOUND` when the file cannot be
opened. -/
def capture_body (env : CamEnv) (s : CamState) :
    EspErr × CamState × List CamEvent :=
  let s2 := reinit_camera .high env.high_ok s
  if env.high_ok = false then (.fail, s2, [.reinitHigh false])
  else if env.fb_ok = false then (.err_no_mem, s2, [.reinitHigh true, .fbGet false])
  else
    let s3 := { s2 with fbHeld := true }
    if env.open_ok = false then
      (.err_not_found, s3, [.reinitHigh true, .fbGet true, .fileOpenEvt false])
    else
      let s4 := { s3 with fileOpen := true }
      if env.write_ok = false then
        (.fail, s4, [.reinitHigh true, .fbGet true, .fileOpenEvt true,
          .fileWrite false])
      else
        let s5 := { s4 with fileOpen := false }
        (.ok, s5, [.reinitHigh true, .fbGet true, .fileOpenEvt true,
          .fileWrite true, .fileClose])

/-- The `cleanup` label of `camera_manager_capture`: close (and on error
remove) a still-open file, return a held frame buffer, unconditionally
`reinit_camera(&cfg_low)`, power the sensor gate down, release `cam_mux`. -/
def capture_cleanup (env : CamEnv) (s : CamState) :
    CamState × List CamEvent :=
  let p1 := if s.fileOpen then (({ s with fileOpen := false } : CamState),
      [CamEvent.fileClose]) else (s, [])
  let p2 := if p1.1.fbHeld then (({ p1.1 with fbHeld := false } : CamState),
      [CamEvent.fbReturn]) else (p1.1, [])
  let s3 := reinit_camera .low env.low_ok p2.1
  (({ s3 with sensorOn := false, mutexHeld := false } : CamState),
    p1.2 ++ p2.2 ++ [CamEvent.reinitLow env.low_ok, CamEvent.muxGive])

/-- `camera_manager_capture` from camera_interface.c: take `cam_mux`
(`portMAX_DELAY`, modelled as succeeding), gate the sensor on, run the
capture body, then the `cleanup` path.  Returns `rc`, the final state and
the event trace. -/
def camera_manager_capture (env : CamEnv) : EspErr × CamState × List CamEvent :=
  let s1 : CamState := ⟨.low, true, true, false, false⟩
  let r := capture_body env s1
  let c := capture_cleanup env r.2.1
  (r.1, c.1, CamEvent.muxTake :: r.2.2 ++ c.2)

/-- The low-resolution restore occurs strictly before the mutex release in
the trace. -/
def restore_before_release (tr : List CamEvent) : Bool :=
  decide (tr.indexOf (CamEvent.reinitLow true) < tr.indexOf CamEvent.muxGive) &&
    tr.contains (CamEvent.reinitLow true) && tr.contains CamEvent.muxGive

/-- C4: whatever intermediate step of the capture sequence fails — the
high-resolution re-init, the frame grab, the file open or the SD write — the
hardware is reconfigured back to the low-resolution scanning format before
the camera mutex is released (the restore re-init itself succeeding, as the
claim's enumeration of failure points assumes); on return the frame buffer
and the file are released as well. -/
theorem c4_capture_restores_low_res (env : CamEnv) (hlow : env.low_ok = true) :
    (camera_manager_capture env).2.1.format = CamFormat.low ∧
      (camera_manager_capture env).2.1.mutexHeld = false ∧
      (camera_manager_capture env).2.1.fbHeld = false ∧
      (camera_manager_capture env).2.1.fileOpen = false ∧
      restore_before_release (camera_manager_capture env).2.2 = true := by
  obtain ⟨h1, h2, h3, h4, h5⟩ := env
  cases h1 <;> cases h2 <;> cases h3 <;> cases h4 <;> cases h5 <;>
    first
      | exact Bool.noConfusion hlow
      | exact ⟨by decide, by decide, by decide, by decide, by decide⟩

/-- Closed witness for `c4_capture_restores_low_res`: every intermediate
step fails, the restore still runs before the release. -/
theorem c4_capture_restores_low_res_witness :
    (camera_manager_capture ⟨false, false, false, false, true⟩).2.1.format =
        CamFormat.low ∧
      (camera_manager_capture ⟨false, false, false, false, true⟩).2.1.mutexHeld = false ∧
      (camera_manager_capture ⟨false, false, false, false, true⟩).2.1.fbHeld = false ∧
      (camera_manager_capture ⟨false, false, false, false, true⟩).2.1.fileOpen = false ∧
      restore_before_release
        (camera_manager_capture ⟨false, false, false, false, true⟩).2.2 = true :=
  c4_capture_restores_low_res ⟨false, false, false, false, true⟩ rfl
end XiaoSense
